import Mathlib

/-!
Shallow embedding of the command-line parser in `src/action.py`
(the `Action` module: option specs, the option matcher, the positional
binder, and the dispatcher), together with theorems checking the
natural-language specification against it.

Python dynamic values that flow through the parser are modelled by the
inductive `Value`; Python callables used as type mappers are modelled as
functions `Option Value → Except PErr Value` (a Python call can receive
`None` and can raise).  Python exceptions raised at distinct `raise`
sites are modelled by distinct constructors of `PErr`.  Python `dict`s
(which preserve insertion order) are modelled as association lists with
in-place replacement on update.
-/

/-- Dynamic values bound to options and positionals (Python objects). -/
inductive Value : Type
  | str : String → Value
  | int : Int → Value
  | bool : Bool → Value
deriving DecidableEq, Repr

/-- Python truthiness of a `Value` (`old if old else 0` in `Count.__call__`). -/
def Value.truthy : Value → Bool
  | .str s => s ≠ ""
  | .int n => n ≠ 0
  | .bool b => b

/-- The distinct error sites of `src/action.py`, one constructor per
`raise` statement reachable from parsing, plus mapper failures. -/
inductive PErr : Type
  | needsArgumentShort (key : Char)
  | requiresArgumentLong (key : String)
  | noArgumentsLong (key : String)
  | duplicateKey (name : String)
  | mapperFailure (msg : String)
  | notCallable
  | unsupportedOperand
  | indexError
  | noSuchAction (name : String)
  | noActionSpecified
  | tooManyArguments
deriving DecidableEq, Repr

/-- A Python callable used as a value mapper (`type` attribute of an
option, or a positional annotation): takes a Python object (possibly
`None`) and returns a value or raises. -/
def Mapper : Type := Option Value → Except PErr Value

/-- Python `str` of a value; models the builtin `str` used as the default
`type` of `Key` and the default positional annotation. -/
def pyStrOf : Option Value → String
  | none => "None"
  | some (.str s) => s
  | some (.int n) => toString n
  | some (.bool b) => if b then "True" else "False"

/-- The builtin `str` as a `Mapper`. -/
def pyStr : Mapper := fun v => .ok (.str (pyStrOf v))

/-- Numeric value of a decimal digit character. -/
def digitVal (c : Char) : Option Nat :=
  if c.isDigit then some (c.toNat - 48) else none

/-- Accumulating decimal parse of a digit run. -/
def digitsToNatAux : List Char → Nat → Option Nat
  | [], acc => some acc
  | c :: rest, acc =>
    match digitVal c with
    | some d => digitsToNatAux rest (acc * 10 + d)
    | none => none

/-- Decimal parse of a non-empty digit run. -/
def digitsToNat (l : List Char) : Option Nat :=
  match l with
  | [] => none
  | _ :: _ => digitsToNatAux l 0

/-- Parse of an optionally signed decimal integer literal, as Python
`int` accepts on the plain literals this parser passes it. -/
def parseIntChars (l : List Char) : Option Int :=
  match l with
  | '-' :: rest => (digitsToNat rest).map (fun n => -(n : Int))
  | '+' :: rest => (digitsToNat rest).map (fun n => (n : Int))
  | rest => (digitsToNat rest).map (fun n => (n : Int))

/-- The builtin `int` as a `Mapper`: parses a string, passes integers
through, converts booleans; anything else raises. -/
def pyInt : Mapper := fun v =>
  match v with
  | some (.str s) =>
    match parseIntChars s.toList with
    | some n => .ok (.int n)
    | none => .error (.mapperFailure "invalid literal for int")
  | some (.int n) => .ok (.int n)
  | some (.bool b) => .ok (.int (if b then 1 else 0))
  | none => .error (.mapperFailure "int of None")

/-- Which subclass of `Action.Option` a spec is: `Flag`, `Count` or `Key`
(their `__call__` overrides differ). -/
inductive OptKind : Type
  | flag
  | count
  | key
deriving DecidableEq, Repr

/-- One declared option: `Action.Option` instance with its `short`,
`long` and `type` attributes and the class deciding `__call__`. -/
structure OptionSpec : Type where
  kind : OptKind
  short : Option Char
  long : Option String
  type : Option Mapper

/-- Python name used in the duplicate-key message: `self.long or self.short`. -/
def OptionSpec.displayName (m : OptionSpec) : String :=
  match m.long with
  | some l => l
  | none =>
    match m.short with
    | some c => String.mk [c]
    | none => "None"

/-- The accumulate function `Option.__call__(old, new)` of each subclass:
`Flag` returns `True`; `Count` returns `(old if old else 0) + 1`;
`Key` requires `old is None` and returns `self.type(new)`. -/
def OptionSpec.call (m : OptionSpec) (old : Option Value) (new : Option Value) :
    Except PErr Value :=
  match m.kind with
  | .flag => .ok (.bool true)
  | .count =>
    let base : Value :=
      match old with
      | some v => if v.truthy then v else .int 0
      | none => .int 0
    match base with
    | .int n => .ok (.int (n + 1))
    | _ => .error .unsupportedOperand
  | .key =>
    match old with
    | some _ => .error (.duplicateKey m.displayName)
    | none =>
      match m.type with
      | some t => t new
      | none => .error .notCallable

/-- An action derived by `_make_action`: `options` is the (insertion
ordered) dict of option name to spec, `arguments` the `OrderedDict` of
positional name to mapper, `is_variadic` the derived flag. -/
structure ActionSpec : Type where
  options : List (String × OptionSpec)
  arguments : List (String × Mapper)
  is_variadic : Bool

/-- An accumulator dict of bound values (`opts` / `arguments` in the
source), insertion-ordered. -/
abbrev Opts : Type := List (String × Value)

instance instDecEqExcept {ε α : Type} [DecidableEq ε] [DecidableEq α] :
    DecidableEq (Except ε α) := fun a b =>
  match a, b with
  | .ok x, .ok y =>
    if h : x = y then isTrue (by rw [h]) else isFalse (by intro he; cases he; exact h rfl)
  | .error x, .error y =>
    if h : x = y then isTrue (by rw [h]) else isFalse (by intro he; cases he; exact h rfl)
  | .ok _, .error _ => isFalse (by intro he; cases he)
  | .error _, .ok _ => isFalse (by intro he; cases he)

/-- Python `d.get(k)`. -/
def lookupV (m : Opts) (k : String) : Option Value :=
  match m with
  | [] => none
  | (k', v) :: rest => if k' = k then some v else lookupV rest k

/-- Python `d[k] = v`: replace in place, else append (insertion order). -/
def store (m : Opts) (k : String) (v : Value) : Opts :=
  match m with
  | [] => [(k, v)]
  | (k', v') :: rest => if k' = k then (k, v) :: rest else (k', v') :: store rest k v

/-- First declared option whose `short` equals the key character
(the `for ... break` loop of `_consume_short_option`). -/
def findShort (options : List (String × OptionSpec)) (key : Char) :
    Option (String × OptionSpec) :=
  options.find? (fun p => p.2.short == some key)

/-- First declared option whose `long` equals the key
(the `for ... break` loop of `_consume_long_option`). -/
def findLong (options : List (String × OptionSpec)) (key : String) :
    Option (String × OptionSpec) :=
  options.find? (fun p => p.2.long == some key)

/-- Python `s.startswith('-')`. -/
def startsWithDash (s : String) : Bool :=
  match s.toList with
  | '-' :: _ => true
  | _ => false

/-- Python `s.startswith('--')`. -/
def startsWithDashDash (s : String) : Bool :=
  match s.toList with
  | '-' :: '-' :: _ => true
  | _ => false

/-- `Action._is_option`: starts with a dash and has something more in it. -/
def isOption (s : String) : Bool :=
  decide (s.length > 1) && startsWithDash s

/-- `Action._is_long_option`: starts with a double dash and has
something more in it. -/
def isLongOption (s : String) : Bool :=
  decide (s.length > 2) && startsWithDashDash s

/-- Python `s[2:]` character slicing. -/
def sliceFrom2 (s : String) : String :=
  String.mk (s.toList.drop 2)

/-- Python `s.split('=', 1)` destructured as `key, *value`: the part
before the first `=`, and the part after it when an `=` is present. -/
def splitFirstEq (s : String) : String × Option String :=
  match s.toList.span (fun c => c ≠ '=') with
  | (k, []) => (String.mk k, none)
  | (k, _ :: rest) => (String.mk k, some (String.mk rest))

/-- Core of `_consume_short_option`, structurally recursive on the
characters after the leading dash.  `c0` is the character at index 0 of
the current token (always a dash at reachable call sites; the recursive
call passes a literal dash, mirroring `'-' + remains`).  `keyRem` is the
token's characters from index 1 on: the key character followed by the
residue.  Returns the updated opts dict, the updated unconsumed list and
the `next_arg`-was-used flag, or the raised error. -/
def consumeShortCore (action : ActionSpec) (c0 : Char) (keyRem : List Char)
    (next_arg : Option String) (opts : Opts) (unconsumed : List String) :
    Except PErr (Opts × List String × Bool) :=
  match keyRem with
  | [] => .error .indexError
  | key :: remains =>
    match findShort action.options key with
    | none => .ok (opts, unconsumed ++ [String.mk (c0 :: key :: remains)], false)
    | some (name, mapper) =>
      let old := lookupV opts name
      match mapper.type with
      | some t =>
        match remains with
        | _ :: _ =>
          match t (some (.str (String.mk remains))) with
          | .ok argvalue =>
            match mapper.call old (some argvalue) with
            | .ok v => .ok (store opts name v, unconsumed, false)
            | .error e => .error e
          | .error e => .error e
        | [] =>
          match next_arg with
          | some na =>
            match t (some (.str na)) with
            | .ok argvalue =>
              match mapper.call old (some argvalue) with
              | .ok v => .ok (store opts name v, unconsumed, true)
              | .error e => .error e
            | .error e => .error e
          | none => .error (.needsArgumentShort key)
      | none =>
        match remains with
        | _ :: _ =>
          match mapper.call old none with
          | .ok v =>
            consumeShortCore action '-' remains next_arg (store opts name v) unconsumed
          | .error e => .error e
        | [] =>
          match mapper.call old none with
          | .ok v => .ok (store opts name v, unconsumed, false)
          | .error e => .error e

/-- `Action._consume_short_option` on a whole token. -/
def consumeShort (action : ActionSpec) (arg : String) (next_arg : Option String)
    (opts : Opts) (unconsumed : List String) :
    Except PErr (Opts × List String × Bool) :=
  match arg.toList with
  | c0 :: keyRem => consumeShortCore action c0 keyRem next_arg opts unconsumed
  | [] => .error .indexError

/-- `Action._consume_long_option`: strips the leading `--`, splits on the
first `=`, looks the key up among the long forms.  On an unknown key the
stripped text (not the raw token) is pushed to `unconsumed`. -/
def consumeLong (action : ActionSpec) (arg : String) (next_arg : Option String)
    (opts : Opts) (unconsumed : List String) :
    Except PErr (Opts × List String × Bool) :=
  let stripped := sliceFrom2 arg
  let kv := splitFirstEq stripped
  let key := kv.1
  let value := kv.2
  match findLong action.options key with
  | none => .ok (opts, unconsumed ++ [stripped], false)
  | some (name, mapper) =>
    let old := lookupV opts name
    match mapper.type with
    | some t =>
      match value with
      | some v =>
        match t (some (.str v)) with
        | .ok argvalue =>
          match mapper.call old (some argvalue) with
          | .ok nv => .ok (store opts name nv, unconsumed, false)
          | .error e => .error e
        | .error e => .error e
      | none =>
        match next_arg with
        | some na =>
          match t (some (.str na)) with
          | .ok argvalue =>
            match mapper.call old (some argvalue) with
            | .ok nv => .ok (store opts name nv, unconsumed, true)
            | .error e => .error e
          | .error e => .error e
        | none => .error (.requiresArgumentLong key)
    | none =>
      match value with
      | some _ => .error (.noArgumentsLong key)
      | none =>
        match mapper.call old none with
        | .ok nv => .ok (store opts name nv, unconsumed, false)
        | .error e => .error e

/-- Python `argv.index('--')` with fallback `len(argv)`. -/
def ddIndex : List String → Nat
  | [] => 0
  | a :: rest => if a = "--" then 0 else ddIndex rest + 1

/-- The pairwise loop of `_parse_options`: each token is processed with a
one-token lookahead (the sentinel `None` pairs with the last token); an
unconsumed, non-option lookahead token is appended to `unconsumed`. -/
def parseOptLoop (action : ActionSpec) (toks : List String) (opts : Opts)
    (unc : List String) : Except PErr (Opts × List String) :=
  match toks with
  | [] => .ok (opts, unc)
  | arg :: rest =>
    let next_arg := rest.head?
    let step : Except PErr (Opts × List String × Bool) :=
      if isLongOption arg then
        consumeLong action arg next_arg opts unc
      else if isOption arg then
        consumeShort action arg next_arg opts unc
      else
        .ok (opts, unc, false)
    match step with
    | .error e => .error e
    | .ok (opts', unc', used) =>
      let unc'' :=
        match next_arg with
        | some na => if !isOption na && !used then unc' ++ [na] else unc'
        | none => unc'
      parseOptLoop action rest opts' unc''

/-- The pre-loop block of `_parse_options`: record the first token of
the scanning region as unconsumed when it is not option-like, because
the loop records unconsumed tokens only from the lookahead and the
first element never gets to the lookahead. -/
def firstUnconsumed (optargv : List String) : List String :=
  match optargv with
  | [] => []
  | first :: _ => if isOption first then [] else [first]

/-- `Action._parse_options`: split at the first `--` (tokens from `--`
on bypass option scanning), pre-record a non-option first token, run the
lookahead loop, then append the positional-only tail verbatim. -/
def parse_options (action : ActionSpec) (argv : List String) :
    Except PErr (Opts × List String) :=
  let i := ddIndex argv
  let optargv := argv.take i
  let positional_only := argv.drop i
  let unc0 := firstUnconsumed optargv
  match parseOptLoop action optargv [] unc0 with
  | .error e => .error e
  | .ok (options, unconsumed) => .ok (options, unconsumed ++ positional_only)

/-- The binding loop of `_parse_arguments`: zip positional tokens with
the declared mappers (zip truncates at the shorter list) and apply each
mapper to its token. -/
def bindPositionals (pairs : List (String × (String × Mapper))) (acc : Opts) :
    Except PErr Opts :=
  match pairs with
  | [] => .ok acc
  | (arg, (name, mapper)) :: rest =>
    match mapper (some (.str arg)) with
    | .ok v => bindPositionals rest (store acc name v)
    | .error e => .error e

/-- `Action._parse_arguments`: split at the first `--` again (this time
dropping the `--` itself), route option-like tokens before it straight
to leftover, bind the rest (plus the post-`--` tail) left-to-right
against the declared positionals, overflow becoming leftover. -/
def parse_arguments (action : ActionSpec) (argv : List String) :
    Except PErr (Opts × List String) :=
  let i := ddIndex argv
  let maybe_positionals := argv.take i
  let positional_only := argv.drop (i + 1)
  let leftover0 := maybe_positionals.filter (fun a => isOption a)
  let positionals := maybe_positionals.filter (fun a => !isOption a) ++ positional_only
  let leftover := leftover0 ++ positionals.drop action.arguments.length
  match bindPositionals (positionals.zip action.arguments) [] with
  | .error e => .error e
  | .ok args => .ok (args, leftover)

/-- `Action._parse_command_line`: options then positionals; the call dict
is options updated by bound positionals. -/
def parse_command_line (action : ActionSpec) (argv : List String) :
    Except PErr (Opts × List String) :=
  match parse_options action argv with
  | .error e => .error e
  | .ok (opts, positionals) =>
    match parse_arguments action positionals with
    | .error e => .error e
    | .ok (args, leftover) =>
      .ok (args.foldl (fun acc kv => store acc kv.1 kv.2) opts, leftover)

/-- The registry state of an `Action` module instance: named actions and
the optional default action. -/
structure Ctx : Type where
  actions : List (String × ActionSpec)
  default_action : Option ActionSpec

/-- Python `dict` lookup in the actions registry. -/
def lookupA (m : List (String × ActionSpec)) (k : String) : Option ActionSpec :=
  match m with
  | [] => none
  | (k', v) :: rest => if k' = k then some v else lookupA rest k

/-- Python `list.remove(x)`: delete the first element equal to `x`
(in `execute` the element is always present). -/
def removeFirst (l : List String) (x : String) : List String :=
  match l with
  | [] => []
  | a :: rest => if a = x then rest else a :: removeFirst rest x

/-- The action-selection phase of `Action.execute`: the first token not
starting with a dash selects a registered action (and is removed from
the token list, mutating the caller's argv), else the default action is
used, else a
tagged error is raised.  Returns the selected spec together with the
caller-visible state of the argv list. -/
def selectAction (ctx : Ctx) (argv : List String) :
    Except PErr (ActionSpec × List String) :=
  let first_positional := argv.find? (fun x => !startsWithDash x)
  match first_positional with
  | some fp =>
    match lookupA ctx.actions fp with
    | some act => .ok (act, removeFirst argv fp)
    | none =>
      match ctx.default_action with
      | some d => .ok (d, argv)
      | none => if fp ≠ "" then .error (.noSuchAction fp) else .error .noActionSpecified
  | none =>
    match ctx.default_action with
    | some d => .ok (d, argv)
    | none => .error .noActionSpecified

/-- `Action.execute` on an already-tokenized list: select an action,
parse, and reject leftover for a non-variadic action.  The first
component is the outcome (the call dict and the leftover that would be
passed to the action body, or the raised error); the second component is
the caller-visible state of the argv list after the call, reflecting the
in-place `argv.remove` mutation. -/
def execute (ctx : Ctx) (argv : List String) :
    Except PErr (Opts × List String) × List String :=
  match selectAction ctx argv with
  | .error e => (.error e, argv)
  | .ok (act, argv2) =>
    match parse_command_line act argv2 with
    | .error e => (.error e, argv2)
    | .ok (call, leftover) =>
      if leftover ≠ [] ∧ act.is_variadic = false then (.error .tooManyArguments, argv2)
      else (.ok (call, leftover), argv2)

/-- The shape of a Python function as `_make_action` observes it through
its code object: declared positional parameters, keyword-only
parameters, the optional `*args` parameter, and body-local variable
names.  CPython lays out `co_varnames` as positionals, then keyword-only
names, then the `*args` name, then locals, and `co_argcount` counts only
the positionals. -/
structure PyFunction : Type where
  posargs : List String
  kwonlyargs : List String
  varargName : Option String
  localNames : List String
deriving DecidableEq, Repr

/-- CPython `co_varnames` of a function. -/
def co_varnames (f : PyFunction) : List String :=
  f.posargs ++ f.kwonlyargs ++
    (match f.varargName with
     | some n => [n]
     | none => []) ++ f.localNames

/-- CPython `co_argcount` of a function. -/
def co_argcount (f : PyFunction) : Nat :=
  f.posargs.length

/-- The `is_variadic` derivation of `_make_action`:
`len(code.co_varnames) > code.co_argcount`. -/
def makeIsVariadic (f : PyFunction) : Bool :=
  decide ((co_varnames f).length > co_argcount f)

/-- Whether the function declares a variable-length trailing positional
parameter (`*args`), the property the spec calls variadic. -/
def declaresVarargs (f : PyFunction) : Bool :=
  f.varargName.isSome

/-!
Concrete fixtures used by the claim theorems, mirroring the actions the
spec's scenarios and the repository's tests declare.
-/

/-- A Count option named verbose with short form v (`action.Count('v', 'verbose')`). -/
def countV : OptionSpec := ⟨.count, some 'v', some "verbose", none⟩

/-- A Key option named count with short form c and value mapper `int`. -/
def keyCInt : OptionSpec := ⟨.key, some 'c', some "count", some pyInt⟩

/-- A Key option named count with short form c and the default `str` mapper. -/
def keyCStr : OptionSpec := ⟨.key, some 'c', some "count", some pyStr⟩

/-- The action of spec Scenario 2: Count verbose (short v) and Key count
(short c, mapper int). -/
def vcAct : ActionSpec := ⟨[("verbose", countV), ("count", keyCInt)], [], true⟩

/-- An action declaring only the value-taking option count (short c, long count). -/
def cAct : ActionSpec := ⟨[("count", keyCStr)], [], true⟩

/-- An action declaring no options at all. -/
def noOptAct : ActionSpec := ⟨[], [], true⟩

/-- An action declaring only the Count option verbose (short v). -/
def vAct : ActionSpec := ⟨[("verbose", countV)], [], true⟩

/-- A value mapper that appends an exclamation mark: a callable that is
not idempotent, so single and double application are distinguishable. -/
def exclaim : Mapper := fun v =>
  match v with
  | some (.str s) => .ok (.str (s ++ "!"))
  | _ => .error (.mapperFailure "expected a string")

/-- An action declaring one Key option (short k) whose mapper is `exclaim`. -/
def exAct : ActionSpec := ⟨[("key", ⟨.key, some 'k', some "key", some exclaim⟩)], [], true⟩

/-- The Key option derived for an unannotated keyword-only parameter
named quiet: `Key('q', 'quiet')` with the default `str` mapper. -/
def keyQ : OptionSpec := ⟨.key, some 'q', some "quiet", some pyStr⟩

/-- Shape of `def act(*, quiet): pass` — one keyword-only parameter, no
`*args`, no locals. -/
def actFn : PyFunction := ⟨[], ["quiet"], none, []⟩

/-- Shape of `def act(): pass` — no parameters, no `*args`, no locals. -/
def plainFn : PyFunction := ⟨[], [], none, []⟩

/-- The action `_make_action` derives from `actFn`: its option dict and
the `is_variadic` flag computed from the code object. -/
def spec5 : ActionSpec := ⟨[("quiet", keyQ)], [], makeIsVariadic actFn⟩

/-- The action `_make_action` derives from `plainFn`. -/
def spec5b : ActionSpec := ⟨[], [], makeIsVariadic plainFn⟩

/-- A registry holding only the action `act` derived from `actFn`. -/
def ctx5 : Ctx := ⟨[("act", spec5)], none⟩

/-- A registry holding only the action `act` derived from `plainFn`. -/
def ctx5b : Ctx := ⟨[("act", spec5b)], none⟩

/-- A registry holding only an action named `go` and no default. -/
def ctx8 : Ctx := ⟨[("go", noOptAct)], none⟩

/-- C4: the token list `-vvvvvvc32` against an action declaring Count
verbose (short v) and Key count (short c, mapper int) yields options
verbose bound to 6 and count bound to 32, with empty remainder: each
no-value character is peeled and accumulated, and the cluster tail
`c32` resolves as the value-taking option with attached value 32. -/
theorem c4_cluster_scenario :
    parse_options vcAct ["-vvvvvvc32"] =
      .ok ([("verbose", .int 6), ("count", .int 32)], []) := by
  decide

/-- C5 (code bug): `_make_action` computes `is_variadic` as
`len(co_varnames) > co_argcount`, which is true for `def act(*, quiet)`
— an action with one keyword-only option and no `*args` — so execute
accepts a leftover token instead of failing with too-many-arguments.
For contrast, an action whose code object has no extra varnames at all
(`def act(): pass`) does reject leftover with the too-many-arguments
error, showing the check itself is reachable and that the divergence is
exactly the variadic derivation. -/
theorem c5_variadic_derivation_diverges :
    makeIsVariadic actFn = true ∧ declaresVarargs actFn = false ∧
    (execute ctx5 ["act", "extra"]).1 = .ok ([], ["extra"]) ∧
    makeIsVariadic plainFn = false ∧ declaresVarargs plainFn = false ∧
    (execute ctx5b ["act", "extra"]).1 = .error .tooManyArguments := by
  refine ⟨by decide, by decide, by decide, by decide, by decide, by decide⟩

/-- C6 (code bug): with a Key option whose mapper appends an exclamation
mark, the token `-ka` binds the value `a!!` — the matcher applies the
mapper to the raw string and `Key.__call__` applies `self.type` to the
result again — whereas a single application of the mapper to the raw
string `a` gives `a!`. -/
theorem c6_mapper_applied_twice :
    exclaim (some (.str "a")) = .ok (.str "a!") ∧
    parse_options exAct ["-ka"] = .ok ([("key", .str "a!!")], []) := by
  exact ⟨by decide, by decide⟩

/-- C1 counterexample: against an action declaring the value-taking
option count (short c), the tokens `-c -v` do not produce a
missing-argument error; the option-like token `-v` is bound as the value
of count (and, unconsumed by the lookahead bookkeeping, also lands in
the remainder). -/
theorem c1_counterexample_next_option_bound :
    parse_options cAct ["-c", "-v"] = .ok ([("count", .str "-v")], ["-v"]) := by
  decide

/-- C3 counterexample: an unknown long option token is not pushed to the
remainder unchanged — `--unknown` against an action with no declared
options yields the remainder entry `unknown`, stripped of its leading
double dash. -/
theorem c3_counterexample_long_dashes_stripped :
    parse_options noOptAct ["--unknown"] = .ok ([], ["unknown"]) ∧
    ("unknown" : String) ≠ "--unknown" := by
  exact ⟨by decide, by decide⟩

/-- C2 counterexample: execute mutates the caller's argv list — after
executing `["act"]` against a registry in which `act` is registered, the
caller-visible list is empty, not `["act"]`. -/
theorem c2_counterexample_argv_mutated :
    (execute ctx5b ["act"]).2 = [] ∧ (([] : List String) ≠ ["act"]) := by
  exact ⟨by decide, by decide⟩
/-- C1 (amended): a value-taking option (short or long) whose token
carries no attached value fails with the missing-argument error only at
end of input, when no following token exists; whenever a following token
exists, the matcher consumes it as the option's value — even when that
token is itself option-like.  The equations give the exact outcome in
both situations for the short and the long form. -/
theorem c1_missing_value_only_at_end
    (action : ActionSpec) (key : Char) (name : String) (mapper : OptionSpec)
    (t : Mapper) (opts : Opts) (unc : List String)
    (argL keyL nameL : String) (mapperL : OptionSpec) (tL : Mapper)
    (hs : findShort action.options key = some (name, mapper))
    (ht : mapper.type = some t)
    (hsplit : splitFirstEq (sliceFrom2 argL) = (keyL, none))
    (hl : findLong action.options keyL = some (nameL, mapperL))
    (htL : mapperL.type = some tL) :
    consumeShort action (String.mk ['-', key]) none opts unc
      = .error (.needsArgumentShort key)
    ∧ (∀ na, consumeShort action (String.mk ['-', key]) (some na) opts unc =
        match t (some (.str na)) with
        | .ok argvalue =>
          match mapper.call (lookupV opts name) (some argvalue) with
          | .ok v => .ok (store opts name v, unc, true)
          | .error e => .error e
        | .error e => .error e)
    ∧ consumeLong action argL none opts unc = .error (.requiresArgumentLong keyL)
    ∧ (∀ na, consumeLong action argL (some na) opts unc =
        match tL (some (.str na)) with
        | .ok argvalue =>
          match mapperL.call (lookupV opts nameL) (some argvalue) with
          | .ok nv => .ok (store opts nameL nv, unc, true)
          | .error e => .error e
        | .error e => .error e) := by
  refine ⟨?_, ?_, ?_, ?_⟩
  · simp [consumeShort, consumeShortCore, hs, ht]
  · intro na
    simp [consumeShort, consumeShortCore, hs, ht]
  · simp [consumeLong, hsplit, hl, htL]
  · intro na
    simp [consumeLong, hsplit, hl, htL]

/-- C1 witness: the amended statement instantiated on the count option
(short c, long count) with the option-like following token `-x`. -/
theorem c1_witness :
    consumeShort cAct "-c" none [] [] = .error (.needsArgumentShort 'c') ∧
    consumeShort cAct "-c" (some "-x") [] [] = .ok ([("count", .str "-x")], [], true) ∧
    consumeLong cAct "--count" none [] [] = .error (.requiresArgumentLong "count") ∧
    consumeLong cAct "--count" (some "-x") [] [] = .ok ([("count", .str "-x")], [], true) := by
  have h := c1_missing_value_only_at_end cAct 'c' "count" keyCStr pyStr [] []
    "--count" "count" "count" keyCStr pyStr rfl rfl rfl rfl rfl
  refine ⟨h.1, ?_, h.2.2.1, ?_⟩
  · exact (h.2.1 "-x").trans (by decide)
  · exact (h.2.2.2 "-x").trans (by decide)

/-- C3 (amended): a short option token (or cluster residue) whose key
matches no declared spec is pushed onto the remainder unchanged, leading
dash intact, and the matcher does not fail; an unknown long option token
is also pushed without failing, but with its leading double dash
stripped (keeping any attached `=value` text). -/
theorem c3_unknown_option_to_remainder
    (action : ActionSpec) (c0 key : Char) (rem : List Char) (next : Option String)
    (opts : Opts) (unc : List String) (argL : String)
    (hs : findShort action.options key = none)
    (hl : findLong action.options (splitFirstEq (sliceFrom2 argL)).1 = none) :
    consumeShortCore action c0 (key :: rem) next opts unc
      = .ok (opts, unc ++ [String.mk (c0 :: key :: rem)], false)
    ∧ consumeLong action argL next opts unc
      = .ok (opts, unc ++ [sliceFrom2 argL], false) := by
  constructor
  · simp [consumeShortCore, hs]
  · simp [consumeLong, hl]

/-- C3 witness: the amended statement instantiated on an action with no
declared options, for the tokens `-x` and `--unknown`. -/
theorem c3_witness :
    consumeShortCore noOptAct '-' ['x'] none [] [] = .ok ([], ["-x"], false) ∧
    consumeLong noOptAct "--unknown" none [] [] = .ok ([], ["unknown"], false) := by
  have h := c3_unknown_option_to_remainder noOptAct '-' 'x' [] none [] [] "--unknown" rfl rfl
  exact ⟨h.1.trans (by decide), h.2.trans (by decide)⟩

/-- C8: the Dispatcher selects the first token not starting with a dash:
if it names a registered action, that token is removed from the list and
its Action Spec selected; otherwise, if a default Action Spec is
registered, the default is selected with all tokens left as arguments;
otherwise a non-empty first positional fails with no-such-action, and
the remaining cases (no positional-looking token at all, or an empty
one) fail with no-action-specified; a selection error is exactly what
execute raises. -/
theorem c8_action_selection (ctx : Ctx) (argv : List String) :
    (∀ fp, argv.find? (fun x => !startsWithDash x) = some fp →
      (∀ act, lookupA ctx.actions fp = some act →
        selectAction ctx argv = .ok (act, removeFirst argv fp)) ∧
      (lookupA ctx.actions fp = none →
        (∀ d, ctx.default_action = some d → selectAction ctx argv = .ok (d, argv)) ∧
        (ctx.default_action = none → fp ≠ "" →
          selectAction ctx argv = .error (.noSuchAction fp)) ∧
        (ctx.default_action = none → fp = "" →
          selectAction ctx argv = .error .noActionSpecified)))
    ∧ (argv.find? (fun x => !startsWithDash x) = none →
        (∀ d, ctx.default_action = some d → selectAction ctx argv = .ok (d, argv)) ∧
        (ctx.default_action = none → selectAction ctx argv = .error .noActionSpecified))
    ∧ (∀ e, selectAction ctx argv = .error e → (execute ctx argv).1 = .error e) := by
  refine ⟨?_, ?_, ?_⟩
  · intro fp hfind
    constructor
    · intro act hact
      simp [selectAction, hfind, hact]
    · intro hnone
      refine ⟨?_, ?_, ?_⟩
      · intro d hd
        simp [selectAction, hfind, hnone, hd]
      · intro hdef hne
        simp [selectAction, hfind, hnone, hdef, hne]
      · intro hdef heq
        subst heq
        simp [selectAction, hfind, hnone, hdef]
  · intro hfind
    refine ⟨?_, ?_⟩
    · intro d hd
      simp [selectAction, hfind, hd]
    · intro hdef
      simp [selectAction, hfind, hdef]
  · intro e hsel
    simp [execute, hsel]

/-- C8 witness: the no-such-action branch instantiated on a registry
holding only `go`, with the token list `-v run`. -/
theorem c8_witness :
    selectAction ctx8 ["-v", "run"] = .error (.noSuchAction "run") ∧
    (execute ctx8 ["-v", "run"]).1 = .error (.noSuchAction "run") := by
  have h := c8_action_selection ctx8 ["-v", "run"]
  have hfind : (["-v", "run"] : List String).find? (fun x => !startsWithDash x)
      = some "run" := by decide
  have h1 := (h.1 "run" hfind).2 rfl
  have hsel := h1.2.1 rfl (by decide)
  exact ⟨hsel, h.2.2 _ hsel⟩

/-- Fuel-counted variant of `consumeShortCore`: each peeling step of the
short-option cluster consumes one unit of fuel, and exhausted fuel
returns `none`. -/
def consumeShortCoreFuel (action : ActionSpec) (c0 : Char) (fuel : Nat)
    (keyRem : List Char) (next_arg : Option String) (opts : Opts)
    (unconsumed : List String) :
    Option (Except PErr (Opts × List String × Bool)) :=
  match fuel with
  | 0 => none
  | fuel' + 1 =>
    match keyRem with
    | [] => some (.error .indexError)
    | key :: remains =>
      match findShort action.options key with
      | none => some (.ok (opts, unconsumed ++ [String.mk (c0 :: key :: remains)], false))
      | some (name, mapper) =>
        let old := lookupV opts name
        match mapper.type with
        | some t =>
          match remains with
          | _ :: _ =>
            match t (some (.str (String.mk remains))) with
            | .ok argvalue =>
              match mapper.call old (some argvalue) with
              | .ok v => some (.ok (store opts name v, unconsumed, false))
              | .error e => some (.error e)
            | .error e => some (.error e)
          | [] =>
            match next_arg with
            | some na =>
              match t (some (.str na)) with
              | .ok argvalue =>
                match mapper.call old (some argvalue) with
                | .ok v => some (.ok (store opts name v, unconsumed, true))
                | .error e => some (.error e)
              | .error e => some (.error e)
            | none => some (.error (.needsArgumentShort key))
        | none =>
          match remains with
          | _ :: _ =>
            match mapper.call old none with
            | .ok v =>
              consumeShortCoreFuel action '-' fuel' remains next_arg
                (store opts name v) unconsumed
            | .error e => some (.error e)
          | [] =>
            match mapper.call old none with
            | .ok v => some (.ok (store opts name v, unconsumed, false))
            | .error e => some (.error e)

/-- C10: parsing terminates on every input: the recursive peeling of a
short-option cluster (resolving a dash plus the residue against the same
lookahead) terminates for every token because the residue shrinks by one
character at each step — a fuel-counted version of the recursion never
exhausts its fuel once the fuel exceeds the length of the characters
after the dash, and agrees with the total function. -/
theorem c10_cluster_peeling_terminates
    (action : ActionSpec) (fuel : Nat) (c0 : Char) (keyRem : List Char)
    (next_arg : Option String) (opts : Opts) (unconsumed : List String)
    (h : keyRem.length < fuel) :
    consumeShortCoreFuel action c0 fuel keyRem next_arg opts unconsumed
      = some (consumeShortCore action c0 keyRem next_arg opts unconsumed) := by
  induction fuel generalizing c0 keyRem opts unconsumed with
  | zero => omega
  | succ fuel ih =>
    cases keyRem with
    | nil => simp [consumeShortCoreFuel, consumeShortCore]
    | cons key remains =>
      simp only [consumeShortCoreFuel, consumeShortCore]
      repeat' split
      all_goals try rfl
      apply ih
      simp at h ⊢
      omega

/-- C10 witness: the fuel bound instantiated on the Scenario 2 cluster
token with fuel 10. -/
theorem c10_witness :
    consumeShortCoreFuel vcAct '-' 10 ['v','v','v','v','v','v','c','3','2'] none [] []
      = some (consumeShortCore vcAct '-' ['v','v','v','v','v','v','c','3','2'] none [] []) := by
  exact c10_cluster_peeling_terminates vcAct 10 '-' ['v','v','v','v','v','v','c','3','2']
    none [] [] (by decide)

/-- Accumulator state after m occurrences of verbose have been counted:
absent for zero, else the integer m. -/
def optsV (m : Nat) : Opts :=
  if m = 0 then [] else [("verbose", .int (m : Int))]

/-- Token consisting of a dash followed by k letters v. -/
def cluster (k : Nat) : String :=
  String.mk ('-' :: List.replicate k 'v')

/-- Fold of an option spec's accumulate function over n occurrences of a
no-value option, starting from the absent value, as the spec's
round-trip property describes. -/
def countFold (spec : OptionSpec) : Nat → Except PErr (Option Value)
  | 0 => .ok none
  | n + 1 =>
    match countFold spec n with
    | .ok prev =>
      match spec.call prev none with
      | .ok v => .ok (some v)
      | .error e => .error e
    | .error e => .error e

/-- Bound value after n occurrences of a Count option: absent for zero,
else the integer n. -/
def optsValOf (n : Nat) : Option Value :=
  if n = 0 then none else some (.int (n : Int))

/-- One Count accumulation step on the verbose accumulator. -/
theorem countV_step (m : Nat) :
    countV.call (lookupV (optsV m) "verbose") none = .ok (.int ((m : Int) + 1))
    ∧ store (optsV m) "verbose" (.int ((m : Int) + 1)) = optsV (m + 1) := by
  cases m with
  | zero =>
    exact ⟨by decide, by simp [optsV, store]⟩
  | succ j =>
    constructor
    · have htr : ((j : Int) + 1) ≠ 0 := by omega
      simp [optsV, lookupV, OptionSpec.call, countV, Value.truthy, htr]
    · simp [optsV, store]

/-- Consuming a pure cluster of k+1 letters v adds k+1 to the verbose count. -/
theorem consume_v_cluster (k : Nat) : ∀ (m : Nat) (next : Option String)
    (unc : List String),
    consumeShortCore vAct '-' (List.replicate (k + 1) 'v') next (optsV m) unc
      = .ok (optsV (m + (k + 1)), unc, false) := by
  induction k with
  | zero =>
    intro m next unc
    have hred : consumeShortCore vAct '-' (List.replicate 1 'v') next (optsV m) unc
        = match countV.call (lookupV (optsV m) "verbose") none with
          | .ok v => .ok (store (optsV m) "verbose" v, unc, false)
          | .error e => .error e := rfl
    rw [hred, (countV_step m).1]
    show Except.ok (store (optsV m) "verbose" (.int ((m : Int) + 1)), unc, false) = _
    rw [(countV_step m).2]
  | succ k ih =>
    intro m next unc
    have hred : consumeShortCore vAct '-' (List.replicate (k + 2) 'v') next (optsV m) unc
        = match countV.call (lookupV (optsV m) "verbose") none with
          | .ok v =>
            consumeShortCore vAct '-' (List.replicate (k + 1) 'v') next
              (store (optsV m) "verbose" v) unc
          | .error e => .error e := rfl
    rw [hred, (countV_step m).1]
    show consumeShortCore vAct '-' (List.replicate (k + 1) 'v') next
        (store (optsV m) "verbose" (.int ((m : Int) + 1))) unc = _
    rw [(countV_step m).2, ih (m + 1) next unc]
    have harith : m + 1 + (k + 1) = m + (k + 1 + 1) := by omega
    rw [harith]

/-- Cluster tokens are option-like. -/
theorem isOption_cluster (k : Nat) : isOption (cluster (k + 1)) = true := by
  have h1 : (cluster (k + 1)).length = k + 2 := by
    show ('-' :: List.replicate (k + 1) 'v').length = k + 2
    simp
  have h2 : startsWithDash (cluster (k + 1)) = true := rfl
  simp [isOption, h1, h2]

/-- Cluster tokens are not long options. -/
theorem isLongOption_cluster (k : Nat) : isLongOption (cluster (k + 1)) = false := by
  have h2 : startsWithDashDash (cluster (k + 1)) = false := rfl
  simp [isLongOption, h2]

/-- Cluster tokens are not the double-dash terminator. -/
theorem cluster_ne_dd (k : Nat) : cluster (k + 1) ≠ "--" := by
  intro h
  have h2 := congrArg String.toList h
  have hl : (cluster (k + 1)).toList = '-' :: 'v' :: List.replicate k 'v' := by
    show '-' :: List.replicate (k + 1) 'v' = _
    rw [List.replicate_succ]
  have hr : ("--" : String).toList = ['-', '-'] := rfl
  rw [hl, hr] at h2
  simp only [List.cons.injEq] at h2
  exact absurd h2.2.1 (by decide)

/-- The lists of tokens considered here contain no double dash, so
`argv.index('--')` falls through to the length. -/
theorem ddIndex_eq_length_of_not_mem (l : List String) (h : "--" ∉ l) :
    ddIndex l = l.length := by
  induction l with
  | nil => rfl
  | cons a rest ih =>
    have ha : a ≠ "--" := by
      intro he
      exact h (he ▸ List.mem_cons_self a rest)
    have hr : "--" ∉ rest := fun hm => h (List.mem_cons_of_mem a hm)
    simp [ddIndex, ha, ih hr]

/-- The option-scanning loop over a list of pure v clusters accumulates
the total letter count into verbose and leaves the unconsumed list alone. -/
theorem parseOptLoop_clusters : ∀ (ks : List Nat) (m : Nat) (unc : List String),
    (∀ k ∈ ks, k ≠ 0) →
    parseOptLoop vAct (ks.map cluster) (optsV m) unc
      = .ok (optsV (m + ks.sum), unc) := by
  intro ks
  induction ks with
  | nil =>
    intro m unc _
    simp [parseOptLoop]
  | cons k ks ih =>
    intro m unc hall
    obtain ⟨j, rfl⟩ : ∃ j, k = j + 1 := by
      have := hall k (List.mem_cons_self k ks)
      exact ⟨k - 1, by omega⟩
    have hshort : consumeShort vAct (cluster (j + 1)) ((ks.map cluster).head?)
        (optsV m) unc = .ok (optsV (m + (j + 1)), unc, false) := by
      show consumeShortCore vAct '-' (List.replicate (j + 1) 'v') _ (optsV m) unc = _
      exact consume_v_cluster j m _ unc
    have hnext : (match (ks.map cluster).head? with
        | some na => if !isOption na && !false then unc ++ [na] else unc
        | none => unc) = unc := by
      cases ks with
      | nil => rfl
      | cons k' ks' =>
        obtain ⟨j', rfl⟩ : ∃ j', k' = j' + 1 := by
          have := hall k' (List.mem_cons_of_mem _ (List.mem_cons_self k' ks'))
          exact ⟨k' - 1, by omega⟩
        simp [isOption_cluster j']
    have hrest : ∀ k' ∈ ks, k' ≠ 0 := fun k' hk' =>
      hall k' (List.mem_cons_of_mem _ hk')
    have hstep : parseOptLoop vAct (((j + 1) :: ks).map cluster) (optsV m) unc
        = parseOptLoop vAct (ks.map cluster) (optsV (m + (j + 1))) unc := by
      rw [List.map_cons, parseOptLoop]
      simp only [isLongOption_cluster, isOption_cluster, Bool.false_eq_true,
        if_false, if_true]
      rw [hshort]
      show parseOptLoop vAct (ks.map cluster) (optsV (m + (j + 1)))
          (match (ks.map cluster).head? with
           | some na => if !isOption na && !false then unc ++ [na] else unc
           | none => unc) = _
      rw [hnext]
    rw [hstep, ih (m + (j + 1)) unc hrest]
    have harith : m + (j + 1) + ks.sum = m + ((j + 1) :: ks).sum := by
      simp [List.sum_cons]
      omega
    rw [harith]

/-- Helper: on a token list with no double dash whose pre-loop unconsumed
record is empty, the option matcher is exactly the lookahead loop. -/
theorem parse_options_via_loop (action : ActionSpec) (argv : List String)
    (hnm : "--" ∉ argv) (hfirst : firstUnconsumed argv = []) :
    parse_options action argv = parseOptLoop action argv [] [] := by
  have hdd := ddIndex_eq_length_of_not_mem argv hnm
  simp only [parse_options, hdd, List.take_length, List.drop_length, hfirst]
  cases h : parseOptLoop action argv [] [] with
  | ok p =>
    obtain ⟨o, u⟩ := p
    simp
  | error e => rfl

/-- C7: for every way of splitting occurrences of the Count option
verbose into non-empty clusters (for example `-vvv` versus `-v -v -v`),
the matcher binds verbose to the total occurrence count; and folding the
Count accumulate function over n occurrences starting from the absent
value yields exactly n (absent when n is zero). -/
theorem c7_count_accumulation :
    (∀ ks : List Nat, (∀ k ∈ ks, k ≠ 0) →
      parse_options vAct (ks.map cluster) = .ok (optsV ks.sum, []))
    ∧ (∀ n : Nat, countFold countV n = .ok (optsValOf n)) := by
  constructor
  · intro ks hall
    have hnm : "--" ∉ ks.map cluster := by
      intro hmem
      obtain ⟨k, hk, he⟩ := List.mem_map.1 hmem
      obtain ⟨j, rfl⟩ : ∃ j, k = j + 1 := by
        have := hall k hk
        exact ⟨k - 1, by omega⟩
      exact cluster_ne_dd j he
    have hfirst : firstUnconsumed (ks.map cluster) = [] := by
      cases ks with
      | nil => rfl
      | cons k ks' =>
        obtain ⟨j, rfl⟩ : ∃ j, k = j + 1 := by
          have := hall k (List.mem_cons_self k ks')
          exact ⟨k - 1, by omega⟩
        simp [firstUnconsumed, isOption_cluster j]
    rw [parse_options_via_loop vAct (ks.map cluster) hnm hfirst]
    have h := parseOptLoop_clusters ks 0 [] hall
    rw [Nat.zero_add] at h
    exact h
  · intro n
    induction n with
    | zero => rfl
    | succ n ih =>
      have hred : countFold countV (n + 1)
          = match countFold countV n with
            | Except.ok prev =>
              match countV.call prev none with
              | Except.ok v => Except.ok (some v)
              | Except.error e => Except.error e
            | Except.error e => Except.error e := rfl
      rw [hred, ih]
      show (match countV.call (optsValOf n) none with
        | Except.ok v => Except.ok (some v)
        | Except.error e => Except.error e) = Except.ok (optsValOf (n + 1))
      cases n with
      | zero => decide
      | succ j =>
        have htr : ((j : Int) + 1) ≠ 0 := by omega
        simp [optsValOf, OptionSpec.call, countV, Value.truthy, htr]

/-- C7 witness: the clustering statement instantiated on the clusters
3, 2, 1 — the token list `-vvv -vv -v` binds verbose to 6. -/
theorem c7_witness :
    parse_options vAct ["-vvv", "-vv", "-v"] = .ok ([("verbose", Value.int 6)], []) := by
  have h := c7_count_accumulation.1 [3, 2, 1] (by decide)
  have he : ([3, 2, 1] : List Nat).map cluster = ["-vvv", "-vv", "-v"] := by decide
  have hs : optsV ([3, 2, 1] : List Nat).sum = [("verbose", Value.int 6)] := by decide
  rw [he, hs] at h
  exact h

/-- Index of the double-dash terminator when present after a clean prefix. -/
theorem ddIndex_append_dd (pre post : List String) (h : "--" ∉ pre) :
    ddIndex (pre ++ "--" :: post) = pre.length := by
  induction pre with
  | nil => rfl
  | cons a rest ih =>
    have ha : a ≠ "--" := by
      intro he
      exact h (he ▸ List.mem_cons_self a rest)
    have hr : "--" ∉ rest := fun hm => h (List.mem_cons_of_mem a hm)
    simp [ddIndex, ha, ih hr]

/-- Dropping past the head of the appended tail. -/
theorem drop_append_cons (q : List String) (x : String) (post : List String) :
    (q ++ x :: post).drop (q.length + 1) = post := by
  induction q with
  | nil => rfl
  | cons a rest ih => simp [ih]

/-- C9: tokens positioned after the first literal `--` are never
interpreted as options: the Option Matcher's bound options are exactly
those of the tokens before the `--`, with the `--` and the tail appended
verbatim to the remainder; and the Positional Binder routes every tail
token into the positional stream — bound left-to-right against the
declared mappers or overflowing into leftover — without the
option-likeness filtering applied to pre-`--` tokens. -/
theorem c9_after_dashdash_not_options :
    (∀ (action : ActionSpec) (pre post : List String), "--" ∉ pre →
      parse_options action (pre ++ "--" :: post)
        = match parse_options action pre with
          | Except.ok (o, r) => Except.ok (o, r ++ "--" :: post)
          | Except.error e => Except.error e)
    ∧ (∀ (action : ActionSpec) (q post : List String), "--" ∉ q →
      parse_arguments action (q ++ "--" :: post)
        = match bindPositionals
            ((q.filter (fun a => !isOption a) ++ post).zip action.arguments) [] with
          | Except.ok args => Except.ok (args,
              q.filter (fun a => isOption a)
                ++ (q.filter (fun a => !isOption a) ++ post).drop action.arguments.length)
          | Except.error e => Except.error e) := by
  constructor
  · intro action pre post h
    have hdd1 : ddIndex (pre ++ "--" :: post) = pre.length := ddIndex_append_dd pre post h
    have hdd2 : ddIndex pre = pre.length := ddIndex_eq_length_of_not_mem pre h
    simp only [parse_options, hdd1, hdd2, List.take_left, List.drop_left,
      List.take_length, List.drop_length]
    cases hp : parseOptLoop action pre [] (firstUnconsumed pre) with
    | ok p =>
      obtain ⟨o, u⟩ := p
      simp
    | error e => rfl
  · intro action q post h
    have hdd1 : ddIndex (q ++ "--" :: post) = q.length := ddIndex_append_dd q post h
    simp only [parse_arguments, hdd1, List.take_left, drop_append_cons]
    cases bindPositionals ((q.filter (fun a => !isOption a) ++ post).zip action.arguments) [] with
    | ok args => rfl
    | error e => rfl

/-- An action with one declared positional named a and no options. -/
def act9 : ActionSpec := ⟨[], [("a", pyStr)], false⟩

/-- C9 witness: both parts instantiated on an action with one declared
positional: option-like tokens after `--` flow to the positional stream
and leftover untouched. -/
theorem c9_witness :
    parse_options act9 ["-x", "--", "-p"] = .ok ([], ["-x", "--", "-p"]) ∧
    parse_arguments act9 ["-x", "val", "--", "-p", "-q"]
      = .ok ([("a", .str "val")], ["-x", "-p", "-q"]) := by
  constructor
  · have h := c9_after_dashdash_not_options.1 act9 ["-x"] ["-p"] (by decide)
    have he : (["-x"] : List String) ++ "--" :: ["-p"] = ["-x", "--", "-p"] := rfl
    rw [he] at h
    rw [h]
    decide
  · have h := c9_after_dashdash_not_options.2 act9 ["-x", "val"] ["-p", "-q"] (by decide)
    have he : (["-x", "val"] : List String) ++ "--" :: ["-p", "-q"]
        = ["-x", "val", "--", "-p", "-q"] := rfl
    rw [he] at h
    rw [h]
    decide

/-- Decomposition of a successful scan for the first non-dash token:
everything before it starts with a dash, and removing it by value
deletes exactly that occurrence. -/
theorem find_nonDash_decomp (l : List String) (fp : String)
    (h : l.find? (fun x => !startsWithDash x) = some fp) :
    ∃ pre post, l = pre ++ fp :: post ∧ (∀ t ∈ pre, startsWithDash t = true)
      ∧ removeFirst l fp = pre ++ post := by
  induction l with
  | nil => simp [List.find?] at h
  | cons a rest ih =>
    rw [List.find?_cons] at h
    by_cases ha : startsWithDash a = true
    · simp only [ha, Bool.not_true, Bool.false_eq_true, if_false] at h
      obtain ⟨pre, post, hl, hpre, hrem⟩ := ih h
      have hfp : startsWithDash fp = false := by
        have := List.find?_some h
        simpa using this
      have hne : a ≠ fp := by
        intro he
        rw [he, hfp] at ha
        cases ha
      refine ⟨a :: pre, post, by simp [hl], ?_, ?_⟩
      · intro t ht
        rcases List.mem_cons.1 ht with rfl | ht'
        · exact ha
        · exact hpre t ht'
      · simp [removeFirst, hne, hrem]
    · have ha' : startsWithDash a = false := by simpa using ha
      simp only [ha', Bool.not_false, if_true] at h
      obtain rfl : a = fp := Option.some.inj h
      exact ⟨[], rest, rfl, by simp, by simp [removeFirst]⟩

/-- Caller-visible argv after execute is whatever the selection phase
left in it. -/
theorem execute_snd (ctx : Ctx) (argv : List String) :
    (execute ctx argv).2
      = match selectAction ctx argv with
        | Except.error _ => argv
        | Except.ok (_, a2) => a2 := by
  cases hs : selectAction ctx argv with
  | error e => simp [execute, hs]
  | ok p =>
    obtain ⟨act, a2⟩ := p
    simp only [execute, hs]
    cases hp : parse_command_line act a2 with
    | error e => rfl
    | ok pr =>
      obtain ⟨call, leftover⟩ := pr
      simp only
      split <;> rfl

/-- C2 (amended): the parse phases work only on per-call accumulators
and the embedding threads no spec state at all, but execute does mutate
the caller's argv list: the caller-visible list after the call is
unchanged unless the first non-dash token names a registered action, in
which case exactly that occurrence has been removed from it. -/
theorem c2_amended_argv_mutation (ctx : Ctx) (argv : List String) :
    (execute ctx argv).2 = argv ∨
    ∃ pre fp post act, argv = pre ++ fp :: post
      ∧ (∀ t ∈ pre, startsWithDash t = true)
      ∧ startsWithDash fp = false
      ∧ lookupA ctx.actions fp = some act
      ∧ (execute ctx argv).2 = pre ++ post := by
  rw [execute_snd]
  cases hf : argv.find? (fun x => !startsWithDash x) with
  | none =>
    left
    simp only [selectAction, hf]
    cases hd : ctx.default_action with
    | some d => rfl
    | none => rfl
  | some fp =>
    cases hl : lookupA ctx.actions fp with
    | none =>
      left
      simp only [selectAction, hf, hl]
      cases hd : ctx.default_action with
      | some d => rfl
      | none =>
        by_cases he : fp = "" <;> simp [he]
    | some act =>
      right
      obtain ⟨pre, post, hdecomp, hpre, hrem⟩ := find_nonDash_decomp argv fp hf
      have hfp : startsWithDash fp = false := by
        have := List.find?_some hf
        simpa using this
      refine ⟨pre, fp, post, act, hdecomp, hpre, hfp, hl, ?_⟩
      simp only [selectAction, hf, hl]
      exact hrem
